import Mathlib

/-!
Shallow embedding of the wrecked-radio message bus (src/src/Channel.ts and
src/src/WreckedRadio.ts).

Event handlers are modelled as opaque identities of a type `H` with decidable
equality (JavaScript compares them by reference in `indexOf`); what a handler
does when invoked is supplied separately to `trigger` as a behaviour map
`beh : H → P → Except ε A`, so a handler may return a value (discarded by
`trigger`) or throw an error `ε`. Request handlers need no identity (the
registry keys them by request name only), so they are stored directly as
functions `P → Except ε A`.

Methods that mutate `this` are state transformers `Channel → Channel`; the
TypeScript `return this` of `reply`/`stopReplying` corresponds to the updated
channel being the value returned. `trigger` and `request` perform no registry
mutation, which the embedding makes explicit by returning the channel alongside
the invocation trace (for `trigger`) or the outcome (for `request`).
-/

/-- Errors surfaced to the caller of `Channel.request`: either the error the
library itself throws when no handler is registered (a JavaScript `Error` whose
message is built by `noHandlerMessage`), or an error thrown by the
user-supplied request handler, propagated untouched. -/
inductive RequestError (ε : Type) where
  | noHandler (message : String)
  | fromHandler (err : ε)
  deriving DecidableEq

/-- The message of the error thrown by `Channel.request` at Channel.ts line
113 when no handler is registered for `requestName`. -/
def noHandlerMessage (requestName : String) : String :=
  "WreckedRadio: the request \"" ++ requestName ++ "\" has no registered handler"

/-- State of a `Channel` (Channel.ts lines 93-101): `events` maps an event
name to the ordered array of registered event handlers (an absent key and an
empty array are observationally equal in the source, so both are the empty
list), and `requests` maps a request name to at most one request handler. -/
structure Channel (H Q : Type) where
  events : String → List H
  requests : String → Option Q

/-- A freshly constructed channel: both registries empty (Channel.ts lines
97 and 101). -/
def Channel.empty (H Q : Type) : Channel H Q :=
  { events := fun _ => [], requests := fun _ => none }

/-- `Channel.request` (Channel.ts lines 108-114): look up the handler for
`requestName`; if present, invoke it with the payload and return its result
(an error it throws propagates, tagged `fromHandler`); otherwise throw the
library's own no-handler error. The channel is returned unchanged: the method
performs no registry mutation. -/
def Channel.request {H P A ε : Type} (c : Channel H (P → Except ε A))
    (requestName : String) (payload : P) :
    Channel H (P → Except ε A) × Except (RequestError ε) A :=
  match c.requests requestName with
  | some requestHandler =>
    (c, match requestHandler payload with
        | Except.ok a => Except.ok a
        | Except.error e => Except.error (RequestError.fromHandler e))
  | none => (c, Except.error (RequestError.noHandler (noHandlerMessage requestName)))

/-- `Channel.reply` (Channel.ts lines 122-125): store `requestHandler` under
`requestName`, overwriting any previous handler, and return the channel. -/
def Channel.reply {H Q : Type} (c : Channel H Q) (requestName : String)
    (requestHandler : Q) : Channel H Q :=
  { c with
    requests := fun r => if r = requestName then some requestHandler else c.requests r }

/-- `Channel.stopReplying` (Channel.ts lines 131-134): delete the handler
stored under `requestName`, if any, and return the channel. -/
def Channel.stopReplying {H Q : Type} (c : Channel H Q) (requestName : String) :
    Channel H Q :=
  { c with requests := fun r => if r = requestName then none else c.requests r }

/-- `Channel.on` (Channel.ts lines 141-143): append `eventHandler` to the
array of listeners for `eventName`, creating the array if absent. -/
def Channel.on {H Q : Type} (c : Channel H Q) (eventName : String)
    (eventHandler : H) : Channel H Q :=
  { c with
    events := fun e =>
      if e = eventName then c.events eventName ++ [eventHandler] else c.events e }

/-- JavaScript `Array.prototype.indexOf` restricted to the identity of the
searched element: index of the first occurrence, or `-1` when absent
(Channel.ts line 145). -/
def jsIndexOf {H : Type} [DecidableEq H] : List H → H → Int
  | [], _ => -1
  | x :: xs, h =>
    if x = h then 0
    else
      let r := jsIndexOf xs h
      if r = -1 then -1 else r + 1

/-- JavaScript `Array.prototype.splice(start, 1)` (Channel.ts line 146): a
negative `start` counts from the end and is clamped at `0`, a `start` past the
end removes nothing; otherwise the single element at `start` is removed. -/
def jsSpliceOne {H : Type} (xs : List H) (start : Int) : List H :=
  let actual : Nat :=
    if start < 0 then ((xs.length : Int) + start).toNat else min start.toNat xs.length
  xs.take actual ++ xs.drop (actual + 1)

/-- The `unsubscribe` closure returned by `Channel.on` (Channel.ts lines
144-147): look up the current index of `eventHandler` in the listener array
for `eventName` with `indexOf` and `splice` one element out at that index.
The closure captures the listener array itself; since the source never
replaces that array after creating it, the captured array is always the
channel's current `events eventName`. -/
def Channel.unsubscribe {H Q : Type} [DecidableEq H] (c : Channel H Q)
    (eventName : String) (eventHandler : H) : Channel H Q :=
  let eventListeners := c.events eventName
  let index := jsIndexOf eventListeners eventHandler
  { c with
    events := fun e =>
      if e = eventName then jsSpliceOne eventListeners index else c.events e }

/-- Semantics of `Array.prototype.forEach(handler => handler(payload))` over
opaque handlers with behaviour `beh` (Channel.ts line 158): invoke each
handler in order with the payload, recording the invocation; the returned
value of a handler is discarded; an error thrown by a handler propagates at
once, so later handlers are not invoked. Returns the invocation trace and the
outcome. -/
def runHandlers {H P ε A : Type} (beh : H → P → Except ε A) (payload : P) :
    List H → List (H × P) × Except ε Unit
  | [] => ([], Except.ok ())
  | h :: hs =>
    match beh h payload with
    | Except.ok _ =>
      let rest := runHandlers beh payload hs
      ((h, payload) :: rest.1, rest.2)
    | Except.error e => ([(h, payload)], Except.error e)

/-- `Channel.trigger` (Channel.ts lines 155-160): invoke every handler
registered for `eventName` in subscription order with the payload (a missing
key and an empty array both mean nothing runs, and the `if` guard never
fails on an existing array). The channel is returned unchanged — the method
performs no registry mutation — together with the invocation trace and the
outcome of the `forEach` loop. -/
def Channel.trigger {H Q P ε A : Type} (c : Channel H Q)
    (beh : H → P → Except ε A) (eventName : String) (payload : P) :
    Channel H Q × List (H × P) × Except ε Unit :=
  (c, runHandlers beh payload (c.events eventName))

/-- State of a `WreckedRadio` bus (WreckedRadio.ts lines 22-26). Reference
identity of `Channel` objects is modelled by numeric instance identifiers:
`channels` associates each channel name with the identifier of its instance,
`nextId` is the next fresh identifier, and `store` gives the state of the
instance behind each identifier. -/
structure WreckedRadio (H Q : Type) where
  channels : List (String × Nat)
  nextId : Nat
  store : Nat → Channel H Q

/-- A freshly constructed bus: `new Map()`, no channels yet. -/
def WreckedRadio.empty (H Q : Type) : WreckedRadio H Q :=
  { channels := [], nextId := 0, store := fun _ => Channel.empty H Q }

/-- `Map.prototype.has`/`get` combined: the identifier associated with
`name`, if any. -/
def lookupChannel : List (String × Nat) → String → Option Nat
  | [], _ => none
  | (n, id) :: rest, name => if n = name then some id else lookupChannel rest name

/-- `WreckedRadio.channel` (WreckedRadio.ts lines 34-41): return the existing
channel instance for `channelName` if the map has one; otherwise construct a
new empty `Channel`, associate it with `channelName`, and return it. The
result is the updated bus together with the identifier of the returned
instance. -/
def WreckedRadio.channel {H Q : Type} (w : WreckedRadio H Q)
    (channelName : String) : WreckedRadio H Q × Nat :=
  match lookupChannel w.channels channelName with
  | some id => (w, id)
  | none =>
    ({ channels := w.channels ++ [(channelName, w.nextId)],
       nextId := w.nextId + 1,
       store := fun i => if i = w.nextId then Channel.empty H Q else w.store i },
     w.nextId)

/-- Well-formedness of a bus state, established at construction and preserved
by `WreckedRadio.channel`: every stored identifier is below `nextId`, no
identifier is stored twice, and no name is stored twice. -/
def WreckedRadio.WF {H Q : Type} (w : WreckedRadio H Q) : Prop :=
  (∀ entry ∈ w.channels, entry.2 < w.nextId) ∧
  (w.channels.map Prod.snd).Nodup ∧ (w.channels.map Prod.fst).Nodup

/-- Subscribing a list of handlers to one event, in order, via `Channel.on`. -/
def subscribeAll {H Q : Type} (c : Channel H Q) (eventName : String)
    (hs : List H) : Channel H Q :=
  hs.foldl (fun acc h => acc.on eventName h) c

theorem events_on_self {H Q : Type} (c : Channel H Q) (e : String) (h : H) :
    (c.on e h).events e = c.events e ++ [h] := by
  simp [Channel.on]

theorem events_on_other {H Q : Type} (c : Channel H Q) (e e2 : String) (h : H)
    (hne : e2 ≠ e) : (c.on e h).events e2 = c.events e2 := by
  simp [Channel.on, hne]

theorem requests_on {H Q : Type} (c : Channel H Q) (e : String) (h : H) :
    (c.on e h).requests = c.requests := rfl

theorem subscribeAll_events_self {H Q : Type} (e : String) (hs : List H) :
    ∀ c : Channel H Q, (subscribeAll c e hs).events e = c.events e ++ hs := by
  induction hs with
  | nil => intro c; simp [subscribeAll]
  | cons h hs ih =>
    intro c
    have step : subscribeAll c e (h :: hs) = subscribeAll (c.on e h) e hs := rfl
    rw [step, ih (c.on e h), events_on_self]
    simp

theorem runHandlers_all_ok {H P ε A : Type} (beh : H → P → Except ε A) (p : P)
    (l : List H) (hok : ∀ x ∈ l, ∃ a, beh x p = Except.ok a) :
    runHandlers beh p l = (l.map (fun x => (x, p)), Except.ok ()) := by
  induction l with
  | nil => simp [runHandlers]
  | cons x xs ih =>
    obtain ⟨a, ha⟩ := hok x (List.mem_cons_self x xs)
    have hrest := ih fun y hy => hok y (List.mem_cons_of_mem x hy)
    simp [runHandlers, ha, hrest]

theorem runHandlers_error {H P ε A : Type} (beh : H → P → Except ε A) (p : P)
    (pre post : List H) (hbad : H) (err : ε)
    (hok : ∀ x ∈ pre, ∃ a, beh x p = Except.ok a)
    (herr : beh hbad p = Except.error err) :
    runHandlers beh p (pre ++ hbad :: post)
      = ((pre.map fun x => (x, p)) ++ [(hbad, p)], Except.error err) := by
  induction pre with
  | nil => simp [runHandlers, herr]
  | cons x xs ih =>
    obtain ⟨a, ha⟩ := hok x (List.mem_cons_self x xs)
    have hrest := ih fun y hy => hok y (List.mem_cons_of_mem x hy)
    simp [runHandlers, ha, hrest]

theorem jsIndexOf_nonneg_of_mem {H : Type} [DecidableEq H] {h : H} :
    ∀ {xs : List H}, h ∈ xs → 0 ≤ jsIndexOf xs h := by
  intro xs
  induction xs with
  | nil => intro hm; cases hm
  | cons x xs ih =>
    intro hm
    by_cases hx : x = h
    · simp [jsIndexOf, hx]
    · have hm2 : h ∈ xs := by
        rcases List.mem_cons.mp hm with h1 | h2
        · exact absurd h1.symm hx
        · exact h2
      have h0 := ih hm2
      simp only [jsIndexOf, if_neg hx]
      have : jsIndexOf xs h ≠ -1 := by omega
      simp only [if_neg this]
      omega

theorem jsIndexOf_lt_length_of_mem {H : Type} [DecidableEq H] {h : H} :
    ∀ {xs : List H}, h ∈ xs → jsIndexOf xs h < xs.length := by
  intro xs
  induction xs with
  | nil => intro hm; cases hm
  | cons x xs ih =>
    intro hm
    by_cases hx : x = h
    · simp [jsIndexOf, hx]
    · have hm2 : h ∈ xs := by
        rcases List.mem_cons.mp hm with h1 | h2
        · exact absurd h1.symm hx
        · exact h2
      have h0 := jsIndexOf_nonneg_of_mem hm2
      have h1 := ih hm2
      simp only [jsIndexOf, if_neg hx]
      have : jsIndexOf xs h ≠ -1 := by omega
      simp only [if_neg this, List.length_cons]
      omega

theorem jsSpliceOne_cons_succ {H : Type} (x : H) (xs : List H) (i : Int)
    (hi : 0 ≤ i) : jsSpliceOne (x :: xs) (i + 1) = x :: jsSpliceOne xs i := by
  have h1 : ¬ (i + 1 < 0) := by omega
  have h2 : ¬ (i < 0) := by omega
  have h3 : (i + 1).toNat = i.toNat + 1 := by omega
  simp only [jsSpliceOne, if_neg h1, if_neg h2, h3, List.length_cons]
  rw [Nat.succ_min_succ]
  simp [List.take_succ_cons, List.drop_succ_cons]

theorem jsSpliceOne_jsIndexOf_of_mem {H : Type} [DecidableEq H] {h : H} :
    ∀ {xs : List H}, h ∈ xs → jsSpliceOne xs (jsIndexOf xs h) = xs.erase h := by
  intro xs
  induction xs with
  | nil => intro hm; cases hm
  | cons x xs ih =>
    intro hm
    by_cases hx : x = h
    · subst hx
      simp [jsIndexOf, jsSpliceOne, List.erase_cons_head]
    · have hm2 : h ∈ xs := by
        rcases List.mem_cons.mp hm with h1 | h2
        · exact absurd h1.symm hx
        · exact h2
      have h0 := jsIndexOf_nonneg_of_mem hm2
      have hne : jsIndexOf xs h ≠ -1 := by omega
      have hidx : jsIndexOf (x :: xs) h = jsIndexOf xs h + 1 := by
        simp [jsIndexOf, hx, hne]
      rw [hidx, jsSpliceOne_cons_succ x xs _ h0, ih hm2,
        List.erase_cons_tail (by simp [hx])]

theorem lookupChannel_mem {n : String} {i : Nat} :
    ∀ {l : List (String × Nat)}, lookupChannel l n = some i → (n, i) ∈ l := by
  intro l
  induction l with
  | nil => intro hl; cases hl
  | cons e rest ih =>
    obtain ⟨m, j⟩ := e
    intro hl
    by_cases hm : m = n
    · simp only [lookupChannel, if_pos hm] at hl
      subst hm
      obtain rfl : j = i := by injection hl
      exact List.mem_cons_self _ _
    · simp only [lookupChannel, if_neg hm] at hl
      exact List.mem_cons_of_mem _ (ih hl)

theorem lookupChannel_none {n : String} :
    ∀ {l : List (String × Nat)}, lookupChannel l n = none → ∀ i, (n, i) ∉ l := by
  intro l
  induction l with
  | nil => intro _ i hm; cases hm
  | cons e rest ih =>
    obtain ⟨m, j⟩ := e
    intro hl i hm
    by_cases hm2 : m = n
    · simp [lookupChannel, if_pos hm2] at hl
    · simp only [lookupChannel, if_neg hm2] at hl
      rcases List.mem_cons.mp hm with h1 | h2
      · exact hm2 (by injection h1 with a b; exact a.symm)
      · exact ih hl i h2

theorem mem_lookupChannel {n : String} {i : Nat} :
    ∀ {l : List (String × Nat)}, (l.map Prod.fst).Nodup → (n, i) ∈ l →
      lookupChannel l n = some i := by
  intro l
  induction l with
  | nil => intro _ hm; cases hm
  | cons e rest ih =>
    obtain ⟨m, j⟩ := e
    intro hnd hm
    rw [List.map_cons, List.nodup_cons] at hnd
    rcases List.mem_cons.mp hm with h1 | h2
    · rw [Prod.mk.injEq] at h1
      obtain ⟨rfl, rfl⟩ := h1
      simp [lookupChannel]
    · by_cases hm2 : m = n
      · exfalso
        apply hnd.1
        subst hm2
        exact List.mem_map.mpr ⟨(m, i), h2, rfl⟩
      · simp only [lookupChannel, if_neg hm2]
        exact ih hnd.2 h2

theorem lookupChannel_append_self {n : String} {i : Nat} :
    ∀ {l : List (String × Nat)}, lookupChannel l n = none →
      lookupChannel (l ++ [(n, i)]) n = some i := by
  intro l
  induction l with
  | nil => intro _; simp [lookupChannel]
  | cons e rest ih =>
    obtain ⟨m, j⟩ := e
    intro hl
    by_cases hm : m = n
    · simp [lookupChannel, if_pos hm] at hl
    · simp only [lookupChannel, if_neg hm] at hl ⊢
      exact ih hl

theorem channel_lookup_some {H Q : Type} (w : WreckedRadio H Q) {n : String}
    {id : Nat} (hl : lookupChannel w.channels n = some id) :
    w.channel n = (w, id) := by
  unfold WreckedRadio.channel
  rw [hl]

theorem channel_lookup_none {H Q : Type} (w : WreckedRadio H Q) {n : String}
    (hl : lookupChannel w.channels n = none) :
    w.channel n =
      ({ channels := w.channels ++ [(n, w.nextId)],
         nextId := w.nextId + 1,
         store := fun i => if i = w.nextId then Channel.empty H Q else w.store i },
       w.nextId) := by
  unfold WreckedRadio.channel
  rw [hl]

theorem channel_WF {H Q : Type} {w : WreckedRadio H Q} (hwf : w.WF) (n : String) :
    (w.channel n).1.WF := by
  obtain ⟨hbound, hsnd, hfst⟩ := hwf
  rcases hl : lookupChannel w.channels n with _ | id
  · rw [channel_lookup_none w hl]
    refine ⟨?_, ?_, ?_⟩
    · intro entry hm
      rcases List.mem_append.mp hm with h1 | h2
      · exact Nat.lt_succ_of_lt (hbound entry h1)
      · rw [List.mem_singleton.mp h2]
        exact Nat.lt_succ_self _
    · rw [List.map_append]
      refine hsnd.append (by simp) ?_
      intro a ha ha2
      rw [List.map_singleton, List.mem_singleton] at ha2
      obtain ⟨entry, hmem, hsnd2⟩ := List.mem_map.mp ha
      have := hbound entry hmem
      omega
    · rw [List.map_append]
      refine hfst.append (by simp) ?_
      intro a ha ha2
      rw [List.map_singleton, List.mem_singleton] at ha2
      obtain ⟨entry, hmem, hfst2⟩ := List.mem_map.mp ha
      subst ha2
      exact lookupChannel_none hl entry.2 (by rw [← hfst2, Prod.mk.eta]; exact hmem)
  · rw [channel_lookup_some w hl]
    exact ⟨hbound, hsnd, hfst⟩

theorem channel_mem {H Q : Type} (w : WreckedRadio H Q) (n : String) :
    (n, (w.channel n).2) ∈ (w.channel n).1.channels := by
  rcases hl : lookupChannel w.channels n with _ | id
  · rw [channel_lookup_none w hl]
    simp
  · rw [channel_lookup_some w hl]
    exact lookupChannel_mem hl

/-- C1: for every event name `e`, payload `p`, and channel state in which the
handlers `hs` have been subscribed to `e` via `on` (in order) before
`trigger e p` is called, and no involved handler throws, `trigger` invokes
every registered handler exactly once, in subscription order (the base
channel's earlier subscribers first, then `hs` in subscription order),
passing `p` to each, discards their return values, and the loop completes
normally. -/
theorem trigger_invokes_all_handlers_in_order {H Q P ε A : Type}
    (c : Channel H Q) (beh : H → P → Except ε A) (e : String) (p : P)
    (hs : List H)
    (hok : ∀ x ∈ c.events e ++ hs, ∃ a, beh x p = Except.ok a) :
    ((subscribeAll c e hs).trigger beh e p).2.1
        = (c.events e ++ hs).map (fun x => (x, p)) ∧
    ((subscribeAll c e hs).trigger beh e p).2.2 = Except.ok () := by
  have hev := subscribeAll_events_self e hs c
  have hrun := runHandlers_all_ok beh p (c.events e ++ hs) hok
  constructor
  · simp [Channel.trigger, hev, hrun]
  · simp [Channel.trigger, hev, hrun]

/-- Witness for C1: three handlers `10, 11, 12` subscribed to event `e` of an
empty channel are each invoked once, in order, with payload `5`. -/
theorem trigger_invokes_all_handlers_in_order_witness :
    ((subscribeAll (Channel.empty Nat Unit) "e" [10, 11, 12]).trigger
        (fun x n => (Except.ok (x + n) : Except Unit Nat)) "e" 5).2.1
      = (((Channel.empty Nat Unit).events "e" ++ [10, 11, 12]).map fun x => (x, 5)) ∧
    ((subscribeAll (Channel.empty Nat Unit) "e" [10, 11, 12]).trigger
        (fun x n => (Except.ok (x + n) : Except Unit Nat)) "e" 5).2.2
      = Except.ok () :=
  trigger_invokes_all_handlers_in_order (Channel.empty Nat Unit)
    (fun x n => (Except.ok (x + n) : Except Unit Nat)) "e" 5 [10, 11, 12]
    (fun x _ => ⟨x + 5, rfl⟩)

/-- C2: after `reply r h`, `request r p` returns exactly `h p`; after a
further `reply r h2`, `request r p` returns `h2 p` and never `h p` (when the
two results differ), and the registry holds exactly the handler `h2` for `r`
— a request name maps to at most one handler (the registry is `Option`-valued
by construction) and the last registration wins. -/
theorem reply_then_request_returns_handler_result {H P A ε : Type}
    (c : Channel H (P → Except ε A)) (r : String) (h h2 : P → Except ε A)
    (p : P) (a a2 : A) (ha : h p = Except.ok a) (ha2 : h2 p = Except.ok a2) :
    ((c.reply r h).request r p).2 = Except.ok a ∧
    (((c.reply r h).reply r h2).request r p).2 = Except.ok a2 ∧
    ((c.reply r h).reply r h2).requests r = some h2 ∧
    (a2 ≠ a → (((c.reply r h).reply r h2).request r p).2 ≠ Except.ok a) := by
  refine ⟨?_, ?_, ?_, ?_⟩
  · simp [Channel.request, Channel.reply, ha]
  · simp [Channel.request, Channel.reply, ha2]
  · simp [Channel.reply]
  · intro hne
    simp [Channel.request, Channel.reply, ha2, hne]

/-- Witness for C2: with `h p = p + 1` and `h2 p = p + 2` at `p = 1`, the
request returns `2` under `h` and `3` (never `2`) after re-registration. -/
theorem reply_then_request_returns_handler_result_witness :
    (((Channel.empty Unit (Nat → Except Unit Nat)).reply "r"
        (fun n => Except.ok (n + 1))).request "r" 1).2 = Except.ok 2 ∧
    ((((Channel.empty Unit (Nat → Except Unit Nat)).reply "r"
        (fun n => Except.ok (n + 1))).reply "r"
        (fun n => Except.ok (n + 2))).request "r" 1).2 = Except.ok 3 ∧
    (((Channel.empty Unit (Nat → Except Unit Nat)).reply "r"
        (fun n => Except.ok (n + 1))).reply "r"
        (fun n => Except.ok (n + 2))).requests "r"
      = some (fun n => Except.ok (n + 2)) ∧
    ((3 : Nat) ≠ 2 →
      ((((Channel.empty Unit (Nat → Except Unit Nat)).reply "r"
          (fun n => Except.ok (n + 1))).reply "r"
          (fun n => Except.ok (n + 2))).request "r" 1).2 ≠ Except.ok 2) :=
  reply_then_request_returns_handler_result
    (Channel.empty Unit (Nat → Except Unit Nat)) "r"
    (fun n => Except.ok (n + 1)) (fun n => Except.ok (n + 2)) 1 2 3 rfl rfl

/-- C3: `request r p` fails exactly when no handler is registered for `r` or
the registered handler itself throws; the error the library itself originates
is precisely the no-handler error, raised exactly when no handler is
registered, its message embeds the request name `r` and starts with the
recognizable marker, and it is distinct from every handler-originated
error. -/
theorem request_error_characterization {H P A ε : Type}
    (c : Channel H (P → Except ε A)) (r : String) (p : P) :
    ((∃ err, (c.request r p).2 = Except.error err) ↔
      (c.requests r = none ∨
        ∃ q e2, c.requests r = some q ∧ q p = Except.error e2)) ∧
    ((∃ msg, (c.request r p).2 = Except.error (RequestError.noHandler msg)) ↔
      c.requests r = none) ∧
    (c.requests r = none →
      (c.request r p).2
        = Except.error (RequestError.noHandler (noHandlerMessage r))) ∧
    (∃ s1 s2, noHandlerMessage r = s1 ++ r ++ s2) ∧
    (∃ s, noHandlerMessage r = "WreckedRadio: " ++ s) ∧
    (∀ e2 : ε, RequestError.noHandler (noHandlerMessage r)
      ≠ RequestError.fromHandler e2) := by
  refine ⟨?_, ?_, ?_, ⟨_, _, rfl⟩, ?_, ?_⟩
  · rcases hq : c.requests r with _ | q
    · simp [Channel.request, hq]
    · rcases hp : q p with a | e2
      · simp [Channel.request, hq, hp]
      · simp [Channel.request, hq, hp]
  · rcases hq : c.requests r with _ | q
    · simp [Channel.request, hq]
    · rcases hp : q p with a | e2
      · simp [Channel.request, hq, hp]
      · simp [Channel.request, hq, hp]
  · intro hq
    simp [Channel.request, hq]
  · refine ⟨"the request \"" ++ (r ++ "\" has no registered handler"), ?_⟩
    unfold noHandlerMessage
    rw [show ("WreckedRadio: the request \"" : String)
          = "WreckedRadio: " ++ "the request \"" from rfl]
    rw [String.append_assoc, String.append_assoc]
  · intro e2 heq
    exact RequestError.noConfusion heq

/-- C4 exhibit: the claimed idempotence of the unsubscribe closure fails on
the code. With handlers `0` and `1` subscribed to event `e`, the first call
of the closure for handler `0` leaves `[1]`, but the second call removes the
unrelated handler `1` as well: `indexOf` returns `-1` for the already-removed
handler and `splice(-1, 1)` deletes the last element of the array. -/
theorem double_unsubscribe_removes_last_handler :
    ((((((Channel.empty Nat Unit).on "e" 0).on "e" 1).unsubscribe
        "e" 0).unsubscribe "e" 0).events "e" = []) ∧
    (((((Channel.empty Nat Unit).on "e" 0).on "e" 1).unsubscribe
        "e" 0).events "e" = [1]) := by
  constructor <;> decide

/-- C6: calling the unsubscribe closure returned by `on e h` once, while `h`
is registered for `e`, removes exactly that handler (by identity, the first
occurrence): the remaining sequence is the old one with that occurrence
erased, so all other handlers keep their relative order; other event
sequences and the request registry are untouched; when `h` was registered
once it is absent afterwards, and a subsequent `trigger e p` (with no
remaining handler throwing) invokes exactly the remaining handlers, in
order. -/
theorem unsubscribe_removes_exactly_that_handler {H Q P ε A : Type}
    [DecidableEq H] (c : Channel H Q) (e : String) (h : H)
    (beh : H → P → Except ε A) (p : P)
    (hmem : h ∈ c.events e)
    (hok : ∀ x ∈ (c.events e).erase h, ∃ a, beh x p = Except.ok a) :
    (c.unsubscribe e h).events e = (c.events e).erase h ∧
    (∀ e2, e2 ≠ e → (c.unsubscribe e h).events e2 = c.events e2) ∧
    (c.unsubscribe e h).requests = c.requests ∧
    ((c.events e).count h = 1 → h ∉ (c.unsubscribe e h).events e) ∧
    ((c.unsubscribe e h).trigger beh e p).2.1
      = ((c.events e).erase h).map (fun x => (x, p)) := by
  have hev : (c.unsubscribe e h).events e = (c.events e).erase h := by
    simp [Channel.unsubscribe, jsSpliceOne_jsIndexOf_of_mem hmem]
  refine ⟨hev, ?_, rfl, ?_, ?_⟩
  · intro e2 hne
    simp [Channel.unsubscribe, hne]
  · intro hcount
    rw [hev]
    have hc := List.count_erase_self h (c.events e)
    rw [hcount] at hc
    exact List.count_eq_zero.mp (by omega)
  · simp only [Channel.trigger, hev, runHandlers_all_ok beh p _ hok]

/-- Witness for C6: in a channel with handlers `7, 8, 9` on event `e`,
unsubscribing `8` leaves `7` and `9` in order and a trigger with payload `1`
invokes exactly them. -/
theorem unsubscribe_removes_exactly_that_handler_witness :
    ((((((Channel.empty Nat Unit).on "e" 7).on "e" 8).on "e" 9).unsubscribe
        "e" 8).events "e"
      = (((((Channel.empty Nat Unit).on "e" 7).on "e" 8).on "e" 9).events
          "e").erase 8) ∧
    (∀ e2, e2 ≠ "e" →
      (((((Channel.empty Nat Unit).on "e" 7).on "e" 8).on "e" 9).unsubscribe
          "e" 8).events e2
        = ((((Channel.empty Nat Unit).on "e" 7).on "e" 8).on "e" 9).events e2) ∧
    (((((Channel.empty Nat Unit).on "e" 7).on "e" 8).on "e" 9).unsubscribe
        "e" 8).requests
      = ((((Channel.empty Nat Unit).on "e" 7).on "e" 8).on "e" 9).requests ∧
    (((((((Channel.empty Nat Unit).on "e" 7).on "e" 8).on "e" 9).events
        "e").count 8 = 1) →
      8 ∉ (((((Channel.empty Nat Unit).on "e" 7).on "e" 8).on "e" 9).unsubscribe
          "e" 8).events "e") ∧
    ((((((((Channel.empty Nat Unit).on "e" 7).on "e" 8).on "e" 9).unsubscribe
        "e" 8).trigger (fun x n => (Except.ok (x + n) : Except Unit Nat))
        "e" 1).2.1)
      = ((((((Channel.empty Nat Unit).on "e" 7).on "e" 8).on "e" 9).events
          "e").erase 8).map (fun x => (x, 1))) :=
  unsubscribe_removes_exactly_that_handler
    ((((Channel.empty Nat Unit).on "e" 7).on "e" 8).on "e" 9) "e" 8
    (fun x n => (Except.ok (x + n) : Except Unit Nat)) 1
    (by decide) (fun x _ => ⟨x + 1, rfl⟩)

/-- C7: `stopReplying r` removes the handler for `r`, so a subsequent
`request r p` throws the no-handler error; on a request name with no
registered handler it is a no-op that changes nothing (and, being a total
function, never throws); in the embedding `reply` and `stopReplying` return
the (updated) channel itself, the image of the TypeScript `return this` used
for chaining. -/
theorem stopReplying_removes_handler {H P A ε : Type}
    (c : Channel H (P → Except ε A)) (r : String) (q : P → Except ε A) :
    ((c.stopReplying r).requests r = none) ∧
    (∀ p, ((c.stopReplying r).request r p).2
        = Except.error (RequestError.noHandler (noHandlerMessage r))) ∧
    (c.requests r = none → c.stopReplying r = c) ∧
    ((c.reply r q).requests r = some q) := by
  refine ⟨by simp [Channel.stopReplying], ?_, ?_, by simp [Channel.reply]⟩
  · intro p
    simp [Channel.request, Channel.stopReplying]
  · intro hq
    obtain ⟨ev, rq⟩ := c
    have hq2 : rq r = none := hq
    simp only [Channel.stopReplying, Channel.mk.injEq, true_and]
    funext r2
    by_cases hr : r2 = r
    · subst hr
      simp [hq2]
    · simp [hr]

/-- C8: `trigger e p` on a channel with zero handlers subscribed to `e`
returns normally with an empty invocation trace and leaves the channel — both
the event registry and the request registry — unchanged. -/
theorem trigger_without_subscribers_is_noop {H Q P ε A : Type}
    (c : Channel H Q) (beh : H → P → Except ε A) (e : String) (p : P)
    (hempty : c.events e = []) :
    c.trigger beh e p = (c, [], Except.ok ()) := by
  simp [Channel.trigger, hempty, runHandlers]

/-- Witness for C8: triggering event `e` on an empty channel does nothing. -/
theorem trigger_without_subscribers_is_noop_witness :
    (Channel.empty Nat Unit).events "e" = [] ∧
    (Channel.empty Nat Unit).trigger
        (fun x n => (Except.ok (x + n) : Except Unit Nat)) "e" 5
      = (Channel.empty Nat Unit, [], Except.ok ()) :=
  ⟨rfl, trigger_without_subscribers_is_noop (Channel.empty Nat Unit)
    (fun x n => (Except.ok (x + n) : Except Unit Nat)) "e" 5 rfl⟩

/-- C9: when the handlers for `e` are `pre ++ hbad :: post`, the handlers of
`pre` run normally and `hbad` throws `err`, `trigger e p` propagates `err`
uncaught to its caller and invokes exactly the handlers up to and including
`hbad` — none of `post` is invoked; likewise an error thrown by a request
handler propagates to the caller of `request`, carried unmodified. -/
theorem handler_error_aborts_and_propagates {H Q P ε A : Type}
    (c : Channel H Q) (creq : Channel H (P → Except ε A))
    (beh : H → P → Except ε A) (e : String) (p : P)
    (pre post : List H) (hbad : H) (err : ε)
    (hsplit : c.events e = pre ++ hbad :: post)
    (hok : ∀ x ∈ pre, ∃ a, beh x p = Except.ok a)
    (herr : beh hbad p = Except.error err)
    (r : String) (q : P → Except ε A)
    (hq : creq.requests r = some q) (hqerr : q p = Except.error err) :
    (c.trigger beh e p).2.2 = Except.error err ∧
    (c.trigger beh e p).2.1 = (pre.map fun x => (x, p)) ++ [(hbad, p)] ∧
    (creq.request r p).2 = Except.error (RequestError.fromHandler err) := by
  have hrun := runHandlers_error beh p pre post hbad err hok herr
  refine ⟨?_, ?_, ?_⟩
  · simp [Channel.trigger, hsplit, hrun]
  · simp [Channel.trigger, hsplit, hrun]
  · simp [Channel.request, hq, hqerr]

/-- Witness for C9: with handlers `1, 2, 3` on event `e` and a behaviour that
throws on handler `2`, the trigger propagates the error and invokes only
handlers `1` and `2`; a request handler that throws propagates its error. -/
theorem handler_error_aborts_and_propagates_witness :
    (((((Channel.empty Nat Unit).on "e" 1).on "e" 2).on "e" 3).trigger
        (fun x n => if x = 2 then Except.error () else Except.ok (x + n))
        "e" 0).2.2 = Except.error () ∧
    (((((Channel.empty Nat Unit).on "e" 1).on "e" 2).on "e" 3).trigger
        (fun x n => if x = 2 then Except.error () else Except.ok (x + n))
        "e" 0).2.1 = (([1].map fun x => (x, 0)) ++ [(2, 0)]) ∧
    (((Channel.empty Nat (Nat → Except Unit Nat)).reply "r"
        (fun _ => Except.error ())).request "r" 0).2
      = Except.error (RequestError.fromHandler ()) :=
  handler_error_aborts_and_propagates
    ((((Channel.empty Nat Unit).on "e" 1).on "e" 2).on "e" 3)
    ((Channel.empty Nat (Nat → Except Unit Nat)).reply "r"
      (fun _ => Except.error ()))
    (fun x n => if x = 2 then Except.error () else Except.ok (x + n))
    "e" 0 [1] [3] 2 () (by decide)
    (fun x hx => by rw [List.mem_singleton.mp hx]; exact ⟨1, rfl⟩)
    rfl "r" (fun _ => Except.error ()) rfl rfl

/-- C10: each registration or removal touches only its own entry: `on e h`
changes no other event sequence and no request entry; `reply r q` and
`stopReplying r` change no other request entry and no event sequence; and
`request` returns the channel unchanged whether it succeeds or throws. -/
theorem operations_touch_only_their_entry {H Q P ε A : Type}
    (c : Channel H Q) (creq : Channel H (P → Except ε A))
    (e : String) (h : H) (r : String) (q : Q) (p : P) :
    ((∀ e2, e2 ≠ e → (c.on e h).events e2 = c.events e2) ∧
      (c.on e h).requests = c.requests) ∧
    ((∀ r2, r2 ≠ r → (c.reply r q).requests r2 = c.requests r2) ∧
      (c.reply r q).events = c.events) ∧
    ((∀ r2, r2 ≠ r → (c.stopReplying r).requests r2 = c.requests r2) ∧
      (c.stopReplying r).events = c.events) ∧
    ((creq.request r p).1 = creq) := by
  refine ⟨⟨?_, rfl⟩, ⟨?_, rfl⟩, ⟨?_, rfl⟩, ?_⟩
  · intro e2 hne
    simp [Channel.on, hne]
  · intro r2 hne
    simp [Channel.reply, hne]
  · intro r2 hne
    simp [Channel.stopReplying, hne]
  · rcases hq : creq.requests r with _ | q2 <;> simp [Channel.request, hq]

/-- C5: under the bus invariant `WF` (established at construction and
preserved by `channel`), looking up two distinct names in sequence yields
distinct channel instances; a repeated lookup of the same name returns the
same instance and leaves the bus unchanged; and a first lookup of an unseen
name returns a fresh instance identifier distinct from every existing one,
stores a new empty channel under it, and associates it with the name. -/
theorem bus_channel_identity {H Q : Type} (w : WreckedRadio H Q)
    (n1 n2 : String) (hwf : w.WF) (hne : n1 ≠ n2) :
    ((w.channel n1).2 ≠ ((w.channel n1).1.channel n2).2) ∧
    ((w.channel n1).1.channel n1 = ((w.channel n1).1, (w.channel n1).2)) ∧
    ((w.channel n1).1.WF) ∧
    (lookupChannel w.channels n1 = none →
      (w.channel n1).2 = w.nextId ∧
      (∀ entry ∈ w.channels, entry.2 ≠ (w.channel n1).2) ∧
      (w.channel n1).1.store (w.channel n1).2 = Channel.empty H Q ∧
      lookupChannel (w.channel n1).1.channels n1 = some (w.channel n1).2) := by
  have hwf1 := channel_WF hwf n1
  have hm1 := channel_mem w n1
  refine ⟨?_, ?_, hwf1, ?_⟩
  · rcases hl2 : lookupChannel (w.channel n1).1.channels n2 with _ | id2
    · rw [channel_lookup_none _ hl2]
      have hb : (w.channel n1).2 < (w.channel n1).1.nextId := hwf1.1 _ hm1
      intro heq
      simp only [] at heq
      omega
    · rw [channel_lookup_some _ hl2]
      have hm2 := lookupChannel_mem hl2
      intro heq
      have hpair := List.inj_on_of_nodup_map hwf1.2.1 hm1 hm2 heq
      exact hne (congrArg Prod.fst hpair)
  · exact channel_lookup_some _ (mem_lookupChannel hwf1.2.2 hm1)
  · intro hl
    rw [channel_lookup_none w hl]
    refine ⟨rfl, ?_, by simp, lookupChannel_append_self hl⟩
    intro entry hmem heq
    have hb := hwf.1 entry hmem
    simp only [] at heq
    omega

/-- Witness for C5: on a fresh bus, the channels named `a` and `b` are
distinct instances, a second lookup of `a` is identical to the first, the
invariant is preserved, and the first lookup of `a` allocated a fresh empty
channel. -/
theorem bus_channel_identity_witness :
    (((WreckedRadio.empty Nat Unit).channel "a").2
        ≠ (((WreckedRadio.empty Nat Unit).channel "a").1.channel "b").2) ∧
    (((WreckedRadio.empty Nat Unit).channel "a").1.channel "a"
        = (((WreckedRadio.empty Nat Unit).channel "a").1,
           ((WreckedRadio.empty Nat Unit).channel "a").2)) ∧
    (((WreckedRadio.empty Nat Unit).channel "a").1.WF) ∧
    (lookupChannel (WreckedRadio.empty Nat Unit).channels "a" = none →
      ((WreckedRadio.empty Nat Unit).channel "a").2
          = (WreckedRadio.empty Nat Unit).nextId ∧
      (∀ entry ∈ (WreckedRadio.empty Nat Unit).channels,
        entry.2 ≠ ((WreckedRadio.empty Nat Unit).channel "a").2) ∧
      ((WreckedRadio.empty Nat Unit).channel "a").1.store
          ((WreckedRadio.empty Nat Unit).channel "a").2
        = Channel.empty Nat Unit ∧
      lookupChannel ((WreckedRadio.empty Nat Unit).channel "a").1.channels "a"
        = some ((WreckedRadio.empty Nat Unit).channel "a").2) :=
  bus_channel_identity (WreckedRadio.empty Nat Unit) "a" "b"
    ⟨by simp [WreckedRadio.empty], by simp [WreckedRadio.empty],
      by simp [WreckedRadio.empty]⟩
    (by decide)
